import Mathlib

/-!
Verification of the evetari ingestion-and-enrichment pipeline
(`scrape_twitter.py` and `scrape_facebook.py`) against its
natural-language specification.

The development shallowly embeds the Python code:

* Python/JSON values are modelled by `PyVal`; a dataset item (a JSON
  object) is a list of key/value pairs with the dict lookup, truthiness
  and `str()` semantics spelled out.
* Python string operations used by the code (`split`, `replace`,
  `strip`, `lstrip`, `startswith`, `in`) are re-implemented on
  character lists so that every step is transparent to the kernel.
* `datetime` values are modelled as a wall-clock reading in seconds
  since the Unix epoch together with an optional UTC-offset
  (`tzinfo`); `astimezone(timezone.utc)` takes the process-local
  offset as an explicit parameter, because CPython interprets a naive
  datetime as local time there.
* The per-item filter, the insert/commit flow and the enrichment loop
  of both scrapers are embedded as pure functions over an explicit
  store (the list of persisted rows); the external actor, the HTTP
  transport to the text-generation service and the general-purpose
  date parser are parameters of the embedded pipeline.
-/

set_option maxRecDepth 10000

namespace Evetari

/-! ## Character-list string primitives (Python string semantics) -/

/-- `hasPfx p s` : does the character list `s` start with `p`?
Models Python `s.startswith(p)` on the underlying characters. -/
def hasPfx : List Char → List Char → Bool
  | [], _ => true
  | _ :: _, [] => false
  | p :: ps, c :: cs => p == c && hasPfx ps cs

/-- `containsL sep s` : does `sep` occur as a contiguous substring of `s`?
Models the Python expression `sep in s`. -/
def containsL (sep : List Char) : List Char → Bool
  | [] => hasPfx sep []
  | c :: rest => hasPfx sep (c :: rest) || containsL sep rest

/-- Fuel-driven worker for `splitOnL`; the fuel always dominates the
length of the remaining string, so the `0` case is never hit with a
nonempty string. -/
def splitGo (sep : List Char) : Nat → List Char → List (List Char)
  | 0, s => [s]
  | fuel + 1, s =>
    match s with
    | [] => [[]]
    | c :: rest =>
      if hasPfx sep s then [] :: splitGo sep fuel (s.drop sep.length)
      else
        match splitGo sep fuel rest with
        | [] => [[c]]
        | seg :: more => (c :: seg) :: more

/-- `splitOnL sep s` : split `s` at every occurrence of the (nonempty)
separator `sep`; models Python `s.split(sep)`.  For an empty separator
(which Python rejects) the whole string is returned unsplit. -/
def splitOnL (sep s : List Char) : List (List Char) :=
  if sep = [] then [s] else splitGo sep s.length s

/-- Join a list of character lists with a separator (Python `sep.join`). -/
def joinSepL (sep : List Char) : List (List Char) → List Char
  | [] => []
  | [x] => x
  | x :: xs => x ++ sep ++ joinSepL sep xs

/-- Python `s.replace(old, new)`: replace every occurrence of `old`. -/
def replaceL (old new s : List Char) : List Char :=
  joinSepL new (splitOnL old s)

/-- The characters Python `str.strip()` removes. -/
def pyWs (c : Char) : Bool :=
  c == ' ' || c == '\t' || c == '\n' || c == '\x0d' || c == '\x0b' || c == '\x0c'

/-- Python `s.strip()` (strip whitespace on both ends). -/
def stripL (s : List Char) : List Char :=
  ((s.dropWhile pyWs).reverse.dropWhile pyWs).reverse

/-- Python `s.lstrip("@")`: drop every leading `'@'`. -/
def lstripAtL (s : List Char) : List Char :=
  s.dropWhile (fun c => c == '@')

/-- Python `s.strip("/")`: drop leading and trailing `'/'` characters. -/
def stripSlashL (s : List Char) : List Char :=
  ((s.dropWhile (fun c => c == '/')).reverse.dropWhile (fun c => c == '/')).reverse

/-- String wrapper for `splitOnL`. -/
def pySplit (s sep : String) : List String :=
  (splitOnL sep.data s.data).map String.mk

/-- String wrapper for `containsL` (Python `sep in s`). -/
def pyContains (s sep : String) : Bool :=
  containsL sep.data s.data

/-- String wrapper for `replaceL` (Python `s.replace(old, new)`). -/
def pyReplace (s old new : String) : String :=
  String.mk (replaceL old.data new.data s.data)

/-- String wrapper for `stripL` (Python `s.strip()`). -/
def pyStrip (s : String) : String := String.mk (stripL s.data)

/-- String wrapper for `hasPfx` (Python `s.startswith(p)`). -/
def pyStartsWith (s p : String) : Bool := hasPfx p.data s.data

/-! ## Python/JSON values and dataset items -/

/-- A Python value as it appears in an Apify dataset item: `None`,
booleans, integers, strings, lists and dicts. -/
inductive PyVal where
  | vnone : PyVal
  | vbool : Bool → PyVal
  | vnum : Int → PyVal
  | vstr : String → PyVal
  | vlist : List PyVal → PyVal
  | vdict : List (String × PyVal) → PyVal

/-- A dataset item: a JSON object, i.e. a dict with string keys. -/
abbrev Item := List (String × PyVal)

/-- Python truthiness: `None`, `False`, `0`, `""`, `[]` and `{}` are
falsy, everything else is truthy. -/
def pyTruthy : PyVal → Bool
  | .vnone => false
  | .vbool b => b
  | .vnum n => n != 0
  | .vstr s => s != ""
  | .vlist l => !l.isEmpty
  | .vdict d => !d.isEmpty

/-- Python `x or y` (on values): `x` if truthy, else `y`. -/
def pyOr (x y : PyVal) : PyVal := if pyTruthy x then x else y

/-- First value bound to key `k` in the object, if any. -/
def lookupKey (k : String) : Item → Option PyVal
  | [] => none
  | (k', v) :: rest => if k' = k then some v else lookupKey k rest

/-- Python `d.get(k)` (missing key gives `None`). -/
def pyGet (t : Item) (k : String) : PyVal := (lookupKey k t).getD .vnone

/-- Python `d.get(k, default)`: the bound value whenever the key is
present (regardless of truthiness), else the default. -/
def pyGetD (t : Item) (k : String) (d : PyVal) : PyVal := (lookupKey k t).getD d

/-- Python `set(item.keys())`. -/
def keysOf (t : Item) : Finset String := (t.map Prod.fst).toFinset

mutual
/-- Python `repr` of a value, used by `str()` on non-string values.
String escaping inside `repr` is simplified to plain quoting; the
pipeline only ever applies `str()` to scalar identifiers. -/
def pyRepr : PyVal → String
  | .vnone => "None"
  | .vbool true => "True"
  | .vbool false => "False"
  | .vnum n => toString n
  | .vstr s => "\x27" ++ s ++ "\x27"
  | .vlist vs => "[" ++ pyReprList vs ++ "]"
  | .vdict kvs => "\x7b" ++ pyReprDict kvs ++ "\x7d"

/-- `repr` of the elements of a list, comma separated. -/
def pyReprList : List PyVal → String
  | [] => ""
  | [v] => pyRepr v
  | v :: vs => pyRepr v ++ ", " ++ pyReprList vs

/-- `repr` of the entries of a dict, comma separated. -/
def pyReprDict : List (String × PyVal) → String
  | [] => ""
  | [(k, v)] => "\x27" ++ k ++ "\x27: " ++ pyRepr v
  | (k, v) :: kvs => "\x27" ++ k ++ "\x27: " ++ pyRepr v ++ ", " ++ pyReprDict kvs
end

/-- Python `str(v)`. -/
def pyStr : PyVal → String
  | .vstr s => s
  | v => pyRepr v

/-- Is the value a dict? (Used to state the well-formedness conditions
under which the Python code does not raise `AttributeError`.) -/
def PyVal.isDict : PyVal → Bool
  | .vdict _ => true
  | _ => false

/-- Is the value a string? -/
def PyVal.isStr : PyVal → Bool
  | .vstr _ => true
  | _ => false

/-- The entries of a dict value (empty for non-dicts; call sites are
guarded by `or {}` plus the well-formedness conditions). -/
def PyVal.entries : PyVal → Item
  | .vdict kvs => kvs
  | _ => []

/-- The string carried by a string value, `""` otherwise. -/
def asStrD : PyVal → String
  | .vstr s => s
  | _ => ""

/-- Python `v == s` for a string literal `s`: true exactly when `v` is
the equal string (a value of any other type never equals a `str`). -/
def pyEqStr (v : PyVal) (s : String) : Bool :=
  match v with
  | .vstr s' => s' == s
  | _ => false

/-! ## `datetime` model and the timestamp normalizer (`_parse_timestamp`) -/

/-- A Python `datetime`: the wall-clock reading in seconds since the
Unix epoch of 1970-01-01 00:00:00 read on its own clock, together with
its `tzinfo` as a UTC offset in seconds (`none` = naive). -/
structure PyDateTime where
  wall : Int
  tz : Option Int
deriving DecidableEq

/-- The absolute UTC instant a datetime denotes, reading a naive value
as if it were UTC (offset 0). -/
def pdInstant (d : PyDateTime) : Int := d.wall - d.tz.getD 0

/-- `d.astimezone(timezone.utc)` where `localOff` is the process-local
UTC offset in seconds: an aware datetime is converted using its own
offset, while CPython presumes a naive datetime to be in local time. -/
def astimezoneUtc (localOff : Int) (d : PyDateTime) : PyDateTime :=
  { wall := d.wall - d.tz.getD localOff, tz := some 0 }

/-- `d.replace(tzinfo=timezone.utc)`: attach UTC keeping the wall-clock
reading. -/
def replaceTzUtc (d : PyDateTime) : PyDateTime := { wall := d.wall, tz := some 0 }

/--
`_parse_timestamp(s)` from `scrape_twitter.py`, parameterised by

* `isoP` — `datetime.fromisoformat`,
* `dtP` — `dateutil.parser.parse`,
* `localOff` — the process-local UTC offset in seconds (used by
  `astimezone` on naive values).

The code first tries `datetime.fromisoformat(s.replace("Z", "+00:00"))`
followed by `.astimezone(timezone.utc)`, then falls back to
`dtparser.parse(s)` (attaching UTC to a naive result, converting an
aware one), and finally returns `None`.
-/
def pyParseTimestamp (isoP dtP : String → Option PyDateTime) (localOff : Int)
    (s : String) : Option PyDateTime :=
  if s = "" then none
  else
    match isoP (pyReplace s "Z" "+00:00") with
    | some d => some (astimezoneUtc localOff d)
    | none =>
      match dtP s with
      | some d =>
        match d.tz with
        | none => some (replaceTzUtc d)
        | some _ => some (astimezoneUtc localOff d)
      | none => none

/-- Modelled from the spec: the Timestamp Normalizer as the
specification describes it — same resolution order, but a parsed value
that lacks a timezone offset is always "assumed UTC", in the direct
ISO branch as well.  Compared against `pyParseTimestamp` (the code),
which pushes a naive ISO value through `astimezone` instead. -/
def parseTimestampSpec (isoP dtP : String → Option PyDateTime)
    (s : String) : Option PyDateTime :=
  if s = "" then none
  else
    match isoP (pyReplace s "Z" "+00:00") with
    | some d => some (replaceTzUtc { wall := d.wall - d.tz.getD 0, tz := some 0 })
    | none =>
      match dtP s with
      | some d => some (replaceTzUtc { wall := d.wall - d.tz.getD 0, tz := some 0 })
      | none => none

/-! ### A concrete ISO-8601 fragment parser

`fromisoformatFrag` models `datetime.fromisoformat` restricted to
second-precision inputs `YYYY-MM-DD[THH:MM[:SS]][±HH:MM]` (no
fractional seconds); on this fragment `dateutil.parser.parse` agrees
with it, which is all the concrete inputs in this development use. -/

/-- Decimal digit value of a character. -/
def digitVal (c : Char) : Option Nat :=
  if c.isDigit then some (c.toNat - 48) else none

/-- Parse exactly two digits. -/
def parse2 : List Char → Option (Nat × List Char)
  | a :: b :: rest =>
    match digitVal a, digitVal b with
    | some x, some y => some (x * 10 + y, rest)
    | _, _ => none
  | _ => none

/-- Parse exactly four digits. -/
def parse4 : List Char → Option (Nat × List Char)
  | a :: b :: c :: d :: rest =>
    match digitVal a, digitVal b, digitVal c, digitVal d with
    | some w, some x, some y, some z => some (((w * 10 + x) * 10 + y) * 10 + z, rest)
    | _, _, _, _ => none
  | _ => none

/-- Gregorian leap year. -/
def isLeap (y : Int) : Bool := (y % 4 == 0 && y % 100 != 0) || y % 400 == 0

/-- Days in a month. -/
def daysInMonth (y : Int) (m : Nat) : Nat :=
  if m = 2 then (if isLeap y then 29 else 28)
  else if m = 4 ∨ m = 6 ∨ m = 9 ∨ m = 11 then 30
  else 31

/-- Days from 1970-01-01 to the civil date `y-m-d` (valid for the
positive years used here). -/
def daysFromCivil (y : Int) (m d : Nat) : Int :=
  let y' : Int := if m ≤ 2 then y - 1 else y
  let era : Int := y' / 400
  let yoe : Int := y' - era * 400
  let mp : Int := if m > 2 then (m : Int) - 3 else (m : Int) + 9
  let doy : Int := (153 * mp + 2) / 5 + (d : Int) - 1
  let doe : Int := yoe * 365 + yoe / 4 - yoe / 100 + doy
  era * 146097 + doe - 719468

/-- Parse a trailing `±HH:MM` UTC offset (must consume the rest). -/
def parseOffsetFrag : List Char → Option Int
  | sign :: rest =>
    if sign = '+' ∨ sign = '-' then
      match parse2 rest with
      | some (hh, ':' :: rest2) =>
        match parse2 rest2 with
        | some (mm, []) =>
          if hh < 24 ∧ mm < 60 then
            let off : Int := (hh * 3600 + mm * 60 : Nat)
            some (if sign = '-' then -off else off)
          else none
        | _ => none
      | _ => none
    else none
  | [] => none

/-- Parse the time-of-day and optional offset that follow the date. -/
def parseTimeFrag (dayWall : Int) : List Char → Option PyDateTime
  | [] => some { wall := dayWall, tz := none }
  | sep :: rest =>
    if sep = 'T' ∨ sep = ' ' then
      match parse2 rest with
      | some (hh, ':' :: r1) =>
        match parse2 r1 with
        | some (mi, r2) =>
          if hh < 24 ∧ mi < 60 then
            let baseWall := dayWall + (hh * 3600 + mi * 60 : Nat)
            match r2 with
            | [] => some { wall := baseWall, tz := none }
            | ':' :: r3 =>
              match parse2 r3 with
              | some (ss, r4) =>
                if ss < 60 then
                  let wall := baseWall + (ss : Int)
                  match r4 with
                  | [] => some { wall := wall, tz := none }
                  | _ => (parseOffsetFrag r4).map fun off => { wall := wall, tz := some off }
                else none
              | none => none
            | _ => (parseOffsetFrag r2).map fun off => { wall := baseWall, tz := some off }
          else none
        | none => none
      | _ => none
    else none

/-- `datetime.fromisoformat` on the second-precision fragment. -/
def fromisoformatFrag (s : String) : Option PyDateTime :=
  match parse4 s.data with
  | some (y, '-' :: r1) =>
    match parse2 r1 with
    | some (m, '-' :: r2) =>
      match parse2 r2 with
      | some (d, r3) =>
        if 1 ≤ m ∧ m ≤ 12 ∧ 1 ≤ d ∧ d ≤ daysInMonth y m then
          parseTimeFrag (daysFromCivil y m d * 86400) r3
        else none
      | _ => none
    | _ => none
  | _ => none

/-- `dateutil.parser.parse` restricted to the strict ISO fragment,
where it agrees with `fromisoformat` except that it additionally
accepts a literal trailing `Z` as UTC (which `fromisoformat` rejects —
the reason `_parse_timestamp` replaces the `Z` before the direct
parse). -/
def dateutilParseFrag (s : String) : Option PyDateTime :=
  match fromisoformatFrag s with
  | some d => some d
  | none =>
    if s.data.getLast? = some 'Z' then
      match fromisoformatFrag (String.mk s.data.dropLast) with
      | some d => if d.tz = none then some { wall := d.wall, tz := some 0 } else none
      | none => none
    else none

/-! ## The handle/URL normalizer (`_normalize_handle`) -/

/-- Split a character list at the first occurrence of the separator,
returning the parts before and after it (Python `s.split(sep, 1)` when
it succeeds). -/
def splitFirstL (sep : List Char) : List Char → Option (List Char × List Char)
  | [] => if sep = [] then some ([], []) else none
  | c :: rest =>
    if hasPfx sep (c :: rest) then some ([], (c :: rest).drop sep.length)
    else
      match splitFirstL sep rest with
      | some (pre, post) => some (c :: pre, post)
      | none => none

/-- Valid URL-scheme characters after the first (RFC 3986, as accepted
by `urllib.parse`). -/
def schemeChar (c : Char) : Bool :=
  c.isAlpha || c.isDigit || c == '+' || c == '-' || c == '.'

/-- Is `p` a valid URL scheme name (letter followed by letters, digits,
`+`, `-`, `.`)? -/
def validScheme (p : List Char) : Bool :=
  match p with
  | [] => false
  | c :: rest => c.isAlpha && rest.all schemeChar

/--
`urllib.parse.urlparse(s).path`, modelled for inputs without a `#`
fragment marker (none of the profile references here carry one):
strip the query at the first `?`, strip a leading `scheme:` when the
prefix before the first `:` is a valid scheme, then — if the remainder
starts with `//` — skip the authority up to the next `/` and return
the path from there (empty if the authority is not followed by `/`);
otherwise the whole remainder is the path.
-/
def pyUrlparsePath (s : String) : String :=
  let noQuery := (splitOnL ['?'] s.data).headD []
  let afterScheme :=
    match splitFirstL [':'] noQuery with
    | some (pre, post) => if validScheme pre then post else noQuery
    | none => noQuery
  if hasPfx ['/', '/'] afterScheme then
    let rest := afterScheme.drop 2
    match splitFirstL ['/'] rest with
    | some (_, post) => String.mk ('/' :: post)
    | none => ""
  else String.mk afterScheme

/--
`_normalize_handle(h)` from `scrape_twitter.py`:

```python
if not h: return ""
h = h.strip()
if h.startswith("http"):
    path = urlparse(h).path.strip("/")
    return (path.split("/", 1)[0] if path else "").lstrip("@")
return h.lstrip("@")
```
-/
def pyNormalizeHandle (h : String) : String :=
  if h = "" then ""
  else
    let t := pyStrip h
    if pyStartsWith t "http" then
      let path := stripSlashL (pyUrlparsePath t).data
      let seg := if path = [] then ([] : List Char) else (splitOnL ['/'] path).headD []
      String.mk (lstripAtL seg)
    else String.mk (lstripAtL t.data)

/-- Modelled from the spec: the claim's reading of the non-URL branch,
"the input with a single leading `@` stripped". -/
def stripSingleAtSpec (h : String) : String :=
  if pyStartsWith h "@" then String.mk (h.data.drop 1) else h

/-! ## Enrichment client (`call_chatgpt` / `parse_chatgpt_response`) -/

/-- Outcome of one HTTP round-trip to the text-generation service, as
far as `call_chatgpt` can distinguish: a usable completion (the
`choices[0].message.content` string), a JSON reply without choices, or
an exception raised by the transport (its `str(e)` text). -/
inductive ChatRes where
  | ok : String → ChatRes
  | noChoices : ChatRes
  | exc : String → ChatRes

/-- Python truthiness of the `OPENAI_API_KEY` environment value
(`None` or the empty string are falsy). -/
def keyTruthy : Option String → Bool
  | none => false
  | some s => s != ""

/-- `call_chatgpt(prompt)` from `scrape_twitter.py`, with the remote
behaviour abstracted into `r`.  The first component records whether
the HTTP request was issued at all: the Twitter variant returns
`"OpenAI API key not set."` before any request when the key is not
configured. -/
def callChatgptTw (key : Option String) (r : ChatRes) : Bool × String :=
  if !keyTruthy key then (false, "OpenAI API key not set.")
  else
    match r with
    | .ok c => (true, pyStrip c)
    | .noChoices => (true, "No response from ChatGPT.")
    | .exc e => (true, "Error calling ChatGPT: " ++ e)

/-- `call_chatgpt(prompt)` from `scrape_facebook.py`: identical remote
handling, but there is no credential check — the request is issued
unconditionally (with whatever `Authorization` header the missing key
produces). -/
def callChatgptFb (_key : Option String) (r : ChatRes) : Bool × String :=
  match r with
  | .ok c => (true, pyStrip c)
  | .noChoices => (true, "No response from ChatGPT.")
  | .exc e => (true, "Error calling ChatGPT: " ++ e)

/-- `parse_chatgpt_response` from `scrape_twitter.py`: split at
`"Post Title:"`; the text before the first marker is the summary and
the text between the first and (any) second marker is the title;
without the marker the whole reply is the summary and the title
defaults to `"Untitled"`. -/
def parseChatgptResponseTw (rt : String) : String × String :=
  if pyContains rt "Post Title:" then
    let parts := pySplit rt "Post Title:"
    (pyStrip (parts.getD 1 ""), pyStrip (parts.getD 0 ""))
  else ("Untitled", rt)

/-- `parse_chatgpt_response` from `scrape_facebook.py`: find `"Title:"`,
take the rest of that line as the title, and everything after the line
up to `"Original Post:"` (with any `"Article:"` markers removed,
stripped) as the summary; on a missing marker or a title segment
without a newline (an unpacking `ValueError`, caught) fall back to
`("Untitled", reply)`. -/
def parseChatgptResponseFb (rt : String) : String × String :=
  match pySplit rt "Title:" with
  | _ :: after :: _ =>
    match splitFirstL ['\n'] after.data with
    | none => ("Untitled", rt)
    | some (titleLine, rest) =>
      let article := (pySplit (String.mk rest) "Original Post:").headD ""
      (pyStrip (String.mk titleLine), pyStrip (pyReplace article "Article:" ""))
  | _ => ("Untitled", rt)

/-! ## The Twitter pipeline (`scrape_and_store_tweets_for_user`) -/

/-- A `ScrapedTweet` row, projected to the columns the verified claims
touch (the natural key, the ingestion texts, the author display name,
the canonical timestamp, and the two enrichment fields; `lang`,
engagement counters and media/author-username columns are omitted as
claim-irrelevant). -/
structure TwRecord where
  tweetId : String
  userId : Nat
  text : String
  fullText : String
  authorName : String
  createdAt : Int
  chatgptTitle : String
  chatgptOutput : String
deriving DecidableEq

/-- The natural key of a row. -/
def twKey (r : TwRecord) : Nat × String := (r.userId, r.tweetId)

/-- `_is_demo_item(item)`:
`keys == {"demo"} or (keys == {"demo", "type"} and not any(k in item
for k in ["id", "text", "fullText"]))`. -/
def isDemoItem (t : Item) : Bool :=
  decide (keysOf t = {"demo"}) ||
    (decide (keysOf t = {"demo", "type"}) &&
      !(decide ("id" ∈ keysOf t) || decide ("text" ∈ keysOf t) ||
        decide ("fullText" ∈ keysOf t)))

/-- Modelled from the spec (for the refinement claim): the demo test as
a pure key-set test, `keys = {"demo"} ∨ keys = {"demo", "type"}`. -/
def isDemoItemSpec (t : Item) : Bool :=
  decide (keysOf t = {"demo"}) || decide (keysOf t = {"demo", "type"})

/-- `t.get("type") and t.get("type") != "tweet"` — the type filter. -/
def twTypeReject (t : Item) : Bool :=
  pyTruthy (pyGet t "type") && !pyEqStr (pyGet t "type") "tweet"

/-- `tweet_id = str(t.get("id", "") or "")`. -/
def twTweetId (t : Item) : String :=
  pyStr (pyOr (pyGetD t "id" (.vstr "")) (.vstr ""))

/-- `(item.get(k1) or {}).get(k2)` (an `AttributeError` when `k1` holds
a truthy non-dict is excluded by the well-formedness condition). -/
def pyGetIn (t : Item) (k1 k2 : String) : PyVal :=
  pyGet (pyOr (pyGet t k1) (.vdict [])).entries k2

/-- `_pick_timestamp_raw(item)`: the `or`-chain over `createdAt`,
`created_at`, `legacy.created_at`, `tweet.createdAt`, `tweet.created_at`
and `""`. -/
def pickTimestampRaw (t : Item) : PyVal :=
  pyOr (pyGet t "createdAt")
    (pyOr (pyGet t "created_at")
      (pyOr (pyGetIn t "legacy" "created_at")
        (pyOr (pyGetIn t "tweet" "createdAt")
          (pyOr (pyGetIn t "tweet" "created_at") (.vstr "")))))

/-- `dt_aware = _parse_timestamp(raw_ts) if raw_ts else None`, where
the parse function `p` (returning the normalized UTC instant in epoch
seconds) is a parameter of the embedded filter. -/
def twParsedTs (p : PyVal → Option Int) (t : Item) : Option Int :=
  if pyTruthy (pickTimestampRaw t) then p (pickTimestampRaw t) else none

/-- The concrete instance of the filter's parse parameter:
`_parse_timestamp` applied to a string (any non-string raw timestamp
makes both parse attempts raise, which the code catches, giving
`None`), projected to the UTC instant. -/
def parseTsModel (isoP dtP : String → Option PyDateTime) (localOff : Int) :
    PyVal → Option Int
  | .vstr s => (pyParseTimestamp isoP dtP localOff s).map pdInstant
  | _ => none

/-- `(item.get("fullText") or item.get("text") or "").strip()`. -/
def extractText (t : Item) : String :=
  pyStrip (asStrD (pyOr (pyGet t "fullText") (pyOr (pyGet t "text") (.vstr ""))))

/-- `t.get("fullText") or t.get("text") or ""` (the unstripped variant
stored in `full_text`). -/
def extractFullText (t : Item) : String :=
  asStrD (pyOr (pyGet t "fullText") (pyOr (pyGet t "text") (.vstr "")))

/-- The `name` component of `_extract_author(item)`. -/
def extractAuthorName (t : Item) : String :=
  let author := (pyOr (pyGet t "author") (.vdict [])).entries
  let name := asStrD (pyOr (pyGet author "name") (.vstr ""))
  let username := asStrD (pyOr (pyGet author "username")
    (pyOr (pyGet author "userName") (.vstr "")))
  if username = "" ∧ pyTruthy (pyGet t "user") then
    if name = "" then
      asStrD (pyOr (pyGet (pyGet t "user").entries "name") (.vstr ""))
    else name
  else name

/-- Map one accepted raw item to its `ScrapedTweet` row (enrichment
fields empty at creation). -/
def twMapItem (uid : Nat) (ts : Int) (t : Item) : TwRecord :=
  { tweetId := twTweetId t, userId := uid, text := extractText t,
    fullText := extractFullText t, authorName := extractAuthorName t,
    createdAt := ts, chatgptTitle := "", chatgptOutput := "" }

/-- The key-existence oracle:
`ScrapedTweet.query.filter_by(user_id=…, tweet_id=…).first()` sees the
committed rows plus the rows already `add`ed in this session (the
query autoflushes pending inserts). -/
def twExists (store pending : List TwRecord) (uid : Nat) (tid : String) : Bool :=
  decide ((uid, tid) ∈ (store ++ pending).map twKey)

/-- Per-item verdict of the Window & Dedup Filter. -/
inductive TwStep where
  | demo : TwStep
  | nonTweet : TwStep
  | missing : TwStep
  | outOfWindow : TwStep
  | duplicate : TwStep
  | accept : TwRecord → TwStep
deriving DecidableEq

/-- One iteration of the filter loop of
`scrape_and_store_tweets_for_user`, applied to one item. -/
def twProcessItem (p : PyVal → Option Int) (uid : Nat) (startTs untilTs : Int)
    (store pending : List TwRecord) (t : Item) : TwStep :=
  if isDemoItem t then .demo
  else if twTypeReject t then .nonTweet
  else
    let tid := twTweetId t
    if tid = "" then .missing
    else
      match twParsedTs p t with
      | none => .missing
      | some ts =>
        if !(decide (startTs ≤ ts) && decide (ts < untilTs)) then .outOfWindow
        else if twExists store pending uid tid then .duplicate
        else .accept (twMapItem uid ts t)

/-- Filter-loop state: the session-pending accepted rows plus the
per-reason discard counters. -/
structure TwFilterOut where
  pending : List TwRecord
  demo : Nat
  nonTweet : Nat
  missing : Nat
  outOfWindow : Nat
  duplicates : Nat
deriving DecidableEq

/-- Record one verdict in the loop state. -/
def twStepCount (st : TwFilterOut) : TwStep → TwFilterOut
  | .demo => { st with demo := st.demo + 1 }
  | .nonTweet => { st with nonTweet := st.nonTweet + 1 }
  | .missing => { st with missing := st.missing + 1 }
  | .outOfWindow => { st with outOfWindow := st.outOfWindow + 1 }
  | .duplicate => { st with duplicates := st.duplicates + 1 }
  | .accept r => { st with pending := st.pending ++ [r] }

/-- The filter loop over the item stream. -/
def twFilterAux (p : PyVal → Option Int) (uid : Nat) (startTs untilTs : Int)
    (store : List TwRecord) (st : TwFilterOut) : List Item → TwFilterOut
  | [] => st
  | t :: rest =>
    twFilterAux p uid startTs untilTs store
      (twStepCount st (twProcessItem p uid startTs untilTs store st.pending t)) rest

/-- The filter run from the empty session. -/
def twFilter (p : PyVal → Option Int) (uid : Nat) (startTs untilTs : Int)
    (store : List TwRecord) (items : List Item) : TwFilterOut :=
  twFilterAux p uid startTs untilTs store ⟨[], 0, 0, 0, 0, 0⟩ items

/-- One pass of the enrichment loop body for one record: call the
service, parse the reply, and set both enrichment fields (counting the
record as summarized) when title and summary are truthy.  Returns the
(possibly updated) record, the `summarized` increment and the number
of HTTP requests issued. -/
def twEnrichOne (key : Option String) (r : ChatRes) (st : TwRecord) :
    TwRecord × Nat × Nat :=
  let out := callChatgptTw key r
  let ts := parseChatgptResponseTw out.2
  let req : Nat := if out.1 then 1 else 0
  if ts.1 ≠ "" ∧ ts.2 ≠ "" then
    ({ st with chatgptTitle := ts.1, chatgptOutput := ts.2 }, 1, req)
  else (st, 0, req)

/-- The enrichment loop over the freshly inserted records, with the
per-record transport outcome supplied by `trs` (indexed in loop
order).  Returns the updated records, the `summarized` count and the
number of requests issued. -/
def twEnrichAux (key : Option String) (trs : Nat → ChatRes) :
    Nat → List TwRecord → List TwRecord × Nat × Nat
  | _, [] => ([], 0, 0)
  | i, st :: rest =>
    let one := twEnrichOne key (trs i) st
    let more := twEnrichAux key trs (i + 1) rest
    (one.1 :: more.1, one.2.1 + more.2.1, one.2.2 + more.2.2)

/-- Outcome of one Twitter pipeline invocation (after the actor fetch):
the persisted store, the rows inserted by commit 1, the filter
counters, whether the enrichment phase was entered, and the request /
summarized counts. -/
structure TwRunOut where
  store : List TwRecord
  inserted : List TwRecord
  counts : TwFilterOut
  enrichEntered : Bool
  requests : Nat
  summarized : Nat

/-- `scrape_and_store_tweets_for_user`, from the point where the
item list has been fetched: filter, early-return (no commit) when
nothing is accepted, otherwise commit the inserts, skip enrichment
entirely when no API key is configured, and otherwise run the
enrichment loop and commit the updates. -/
def twRun (p : PyVal → Option Int) (uid : Nat) (startTs untilTs : Int)
    (store0 : List TwRecord) (items : List Item) (key : Option String)
    (trs : Nat → ChatRes) : TwRunOut :=
  let f := twFilter p uid startTs untilTs store0 items
  if f.pending = [] then ⟨store0, [], f, false, 0, 0⟩
  else if !keyTruthy key then ⟨store0 ++ f.pending, f.pending, f, false, 0, 0⟩
  else
    let e := twEnrichAux key trs 0 f.pending
    ⟨store0 ++ e.1, f.pending, f, true, e.2.2, e.2.1⟩

/-! ## The Facebook pipeline (`scrape_and_store_fb_posts_for_user`) -/

/-- A `ScrapedFBPost` row, projected to the columns the verified claims
touch (the natural key, page name, post text, and the two enrichment
fields; url / time-of-posting / counters / picture columns are omitted
as claim-irrelevant). -/
structure FbRecord where
  postId : String
  userId : Nat
  pageName : String
  postText : String
  posttitle : String
  chatgptOutput : String
deriving DecidableEq

/-- The natural key of a row. -/
def fbKey (r : FbRecord) : Nat × String := (r.userId, r.postId)

/-- `t.get('postId', t.get('id', ''))` (dict-`get` with defaults keys
on presence, not truthiness). -/
def fbPostIdVal (t : Item) : PyVal := pyGetD t "postId" (pyGetD t "id" (.vstr ""))

/-- `post_id = str(t.get('postId', t.get('id', '')))`; this is also the
value the `String(255)` column stores for the key. -/
def fbPostId (t : Item) : String := pyStr (fbPostIdVal t)

/-- `post_time_str = t.get("time", "")`. -/
def fbTimeVal (t : Item) : PyVal := pyGetD t "time" (.vstr "")

/-- `ScrapedFBPost.query.filter_by(user_id=…, post_id=…).first()` as a
boolean (the Facebook filter runs before any `session.add`, so only
committed rows are visible). -/
def fbExists (store : List FbRecord) (uid : Nat) (pid : String) : Bool :=
  decide ((uid, pid) ∈ store.map fbKey)

/--
One iteration of the Facebook filter loop: the item is kept (appended
to `new_items`) exactly when its stringified post id and raw time are
truthy, the time parses (`pd` returns the `.date()` of
`dateutil.parser.parse` as a day number — the wall-clock calendar day,
no UTC conversion), the parsed day equals `today`
(`datetime.utcnow().date()`), and the key does not already exist.
-/
def fbKeep (pd : PyVal → Option Int) (uid : Nat) (today : Int)
    (store : List FbRecord) (t : Item) : Bool :=
  if fbPostId t ≠ "" ∧ pyTruthy (fbTimeVal t) then
    match pd (fbTimeVal t) with
    | none => false
    | some d => d == today && !fbExists store uid (fbPostId t)
  else false

/-- The Facebook filter: `new_items`, in arrival order. -/
def fbFilter (pd : PyVal → Option Int) (uid : Nat) (today : Int)
    (store : List FbRecord) (items : List Item) : List Item :=
  items.filter (fbKeep pd uid today store)

/-- The concrete instance of `pd`: `parser.parse(s).date()` on a
string (a non-string raises inside the `try`, caught as a skip), as a
day number via floor division of the wall-clock seconds. -/
def parseDateModel (dtP : String → Option PyDateTime) : PyVal → Option Int
  | .vstr s => (dtP s).map fun d => Int.fdiv d.wall 86400
  | _ => none

/-- `processed_data` construction plus `ScrapedFBPost(...)` for one
kept item (enrichment fields empty at creation). -/
def fbMapItem (uid : Nat) (t : Item) : FbRecord :=
  let pnv := pyGetD t "pageName" (.vstr "")
  { postId := fbPostId t, userId := uid,
    pageName := if pnv.isDict then asStrD (pyGetD pnv.entries "name" (.vstr ""))
      else asStrD pnv,
    postText := asStrD (pyGetD t "text" (.vstr "")),
    posttitle := "", chatgptOutput := "" }

/-- Set both enrichment fields on the first row matching the key
(`query…first()` followed by attribute assignment). -/
def fbUpdateFirst (uid : Nat) (pid ti su : String) :
    List FbRecord → List FbRecord
  | [] => []
  | r :: rest =>
    if fbKey r = (uid, pid) then
      { r with posttitle := ti, chatgptOutput := su } :: rest
    else r :: fbUpdateFirst uid pid ti su rest

/-- The Facebook enrichment loop over the kept items: look the row up
by key; when found, call the service (no credential check), parse the
reply, and write both enrichment fields unconditionally.  Returns the
updated store and the number of requests issued. -/
def fbEnrichAux (key : Option String) (trs : Nat → ChatRes) (uid : Nat) :
    Nat → List Item → List FbRecord → List FbRecord × Nat
  | _, [], store => (store, 0)
  | i, t :: rest, store =>
    if fbExists store uid (fbPostId t) then
      let out := callChatgptFb key (trs i)
      let ts := parseChatgptResponseFb out.2
      let store' := fbUpdateFirst uid (fbPostId t) ts.1 ts.2 store
      let more := fbEnrichAux key trs uid (i + 1) rest store'
      (more.1, (if out.1 then 1 else 0) + more.2)
    else fbEnrichAux key trs uid (i + 1) rest store

/-! ## Well-formedness of items

The Python loops raise an uncaught `AttributeError` when a nested
field that the code calls `.get`/`.strip` on holds a truthy value of
the wrong type; such a dataset aborts the invocation before its
commit.  The run-level theorems therefore restrict to items on which
the loops run to completion, which is exactly when these conditions
hold. -/

/-- `v` may be fed to `(v or {}).get(...)` without raising: falsy, or a
dict. -/
def dictIfTruthy (v : PyVal) : Bool := !pyTruthy v || v.isDict

/-- The head of a `media` list must be a dict before `media[0].get`. -/
def headDictOk : PyVal → Bool
  | .vlist (x :: _) => x.isDict
  | _ => true

/-- Crash-freedom of one Twitter item through the filter, mapping and
extraction code. -/
def twItemWF (t : Item) : Bool :=
  dictIfTruthy (pyGet t "legacy") && dictIfTruthy (pyGet t "tweet") &&
  dictIfTruthy (pyGet t "author") && dictIfTruthy (pyGet t "user") &&
  dictIfTruthy (pyGet t "entities") &&
  dictIfTruthy (pyOr (pyGet t "extendedEntities")
    (pyOr (pyGet t "extended_entities") (.vdict []))) &&
  (pyOr (pyGet t "fullText") (pyOr (pyGet t "text") (.vstr ""))).isStr &&
  headDictOk (pyOr (pyGet (pyOr (pyGet t "entities") (.vdict [])).entries "media")
    (.vlist [])) &&
  headDictOk (pyOr
    (pyGet (pyOr (pyGet t "extendedEntities")
      (pyOr (pyGet t "extended_entities") (.vdict []))).entries "media")
    (.vlist []))

/-- Outcome of one Facebook pipeline invocation (after the actor
fetch). -/
structure FbRunOut where
  store : List FbRecord
  inserted : List FbRecord
  enrichEntered : Bool
  requests : Nat

/-- `scrape_and_store_fb_posts_for_user`, from the point where the item
list has been fetched: filter to today's new posts, early-return (no
commit) when none are kept, otherwise map and commit the inserts, then
run the enrichment loop (which happens with or without a configured
key) and commit the updates. -/
def fbRun (pd : PyVal → Option Int) (uid : Nat) (today : Int)
    (store0 : List FbRecord) (items : List Item) (key : Option String)
    (trs : Nat → ChatRes) : FbRunOut :=
  let kept := fbFilter pd uid today store0 items
  if kept.isEmpty then ⟨store0, [], false, 0⟩
  else
    let recs := kept.map (fbMapItem uid)
    let e := fbEnrichAux key trs uid 0 kept (store0 ++ recs)
    ⟨e.1, recs, true, e.2⟩

/-- Crash-freedom of one Facebook item through the filter and mapping
code (`media[0].get(...)` and `t.get("user", {}).get(...)`). -/
def fbItemWF (t : Item) : Bool :=
  headDictOk (pyGetD t "media" (.vlist [])) &&
  (pyGetD t "user" (.vdict [])).isDict

/-! ## A clean characterization of the Twitter filter's accepted rows -/

/-- The store-independent ("static") part of one filter iteration: the
normalized instant of the item when it passes the demo, type, key,
parse and window checks, `none` when one of them discards it. -/
def twAdmit (p : PyVal → Option Int) (startTs untilTs : Int) (t : Item) :
    Option Int :=
  if isDemoItem t then none
  else if twTypeReject t then none
  else if twTweetId t = "" then none
  else
    match twParsedTs p t with
    | none => none
    | some ts =>
      if !(decide (startTs ≤ ts) && decide (ts < untilTs)) then none else some ts

/-- The accepted (session-pending) rows of the filter loop, computed
directly: statically admitted items are appended unless their key is
already visible. -/
def twPendingAux (p : PyVal → Option Int) (uid : Nat) (startTs untilTs : Int)
    (store : List TwRecord) (pend : List TwRecord) : List Item → List TwRecord
  | [] => pend
  | t :: rest =>
    match twAdmit p startTs untilTs t with
    | none => twPendingAux p uid startTs untilTs store pend rest
    | some ts =>
      if twExists store pend uid (twTweetId t) then
        twPendingAux p uid startTs untilTs store pend rest
      else
        twPendingAux p uid startTs untilTs store (pend ++ [twMapItem uid ts t]) rest

/-! ## Lemmas about the Twitter filter -/

theorem twExists_iff (store pending : List TwRecord) (uid : Nat) (tid : String) :
    twExists store pending uid tid = true ↔
      (uid, tid) ∈ (store ++ pending).map twKey := by
  simp [twExists]

theorem twKey_map (uid : Nat) (ts : Int) (t : Item) :
    twKey (twMapItem uid ts t) = (uid, twTweetId t) := rfl

theorem twStep_pending_char (p : PyVal → Option Int) (uid : Nat)
    (startTs untilTs : Int) (store : List TwRecord) (st : TwFilterOut) (t : Item) :
    (twStepCount st (twProcessItem p uid startTs untilTs store st.pending t)).pending =
      (match twAdmit p startTs untilTs t with
       | none => st.pending
       | some ts =>
         if twExists store st.pending uid (twTweetId t) then st.pending
         else st.pending ++ [twMapItem uid ts t]) := by
  by_cases h1 : isDemoItem t
  · simp [twProcessItem, twAdmit, twStepCount, h1]
  · by_cases h2 : twTypeReject t
    · simp [twProcessItem, twAdmit, twStepCount, h1, h2]
    · by_cases h3 : twTweetId t = ""
      · simp [twProcessItem, twAdmit, twStepCount, h1, h2, h3]
      · cases hp : twParsedTs p t with
        | none => simp [twProcessItem, twAdmit, twStepCount, h1, h2, h3, hp]
        | some ts =>
          by_cases h4 : (!(decide (startTs ≤ ts) && decide (ts < untilTs))) = true
          · simp [twProcessItem, twAdmit, twStepCount, h1, h2, h3, hp, h4]
          · by_cases h5 : twExists store st.pending uid (twTweetId t)
            · simp [twProcessItem, twAdmit, twStepCount, h1, h2, h3, hp, h4, h5]
            · simp [twProcessItem, twAdmit, twStepCount, h1, h2, h3, hp, h4, h5]

theorem twFilterAux_pending (p : PyVal → Option Int) (uid : Nat)
    (startTs untilTs : Int) (store : List TwRecord) (st : TwFilterOut)
    (items : List Item) :
    (twFilterAux p uid startTs untilTs store st items).pending =
      twPendingAux p uid startTs untilTs store st.pending items := by
  induction items generalizing st with
  | nil => rfl
  | cons t rest ih =>
    rw [twFilterAux, ih, twPendingAux, twStep_pending_char]
    cases twAdmit p startTs untilTs t with
    | none => rfl
    | some ts =>
      by_cases h : twExists store st.pending uid (twTweetId t) <;> simp [h]

theorem twPendingAux_append (p : PyVal → Option Int) (uid : Nat)
    (startTs untilTs : Int) (store : List TwRecord) (items : List Item)
    (pend : List TwRecord) :
    ∃ l, twPendingAux p uid startTs untilTs store pend items = pend ++ l := by
  induction items generalizing pend with
  | nil => exact ⟨[], by simp [twPendingAux]⟩
  | cons t rest ih =>
    rw [twPendingAux]
    cases twAdmit p startTs untilTs t with
    | none => exact ih pend
    | some ts =>
      dsimp only
      by_cases h : twExists store pend uid (twTweetId t)
      · rw [if_pos h]
        exact ih pend
      · rw [if_neg h]
        obtain ⟨l, hl⟩ := ih (pend ++ [twMapItem uid ts t])
        exact ⟨twMapItem uid ts t :: l, by rw [hl]; simp⟩

theorem twPendingAux_dominated (p : PyVal → Option Int) (uid : Nat)
    (startTs untilTs : Int) (store store' : List TwRecord)
    (pend' : List TwRecord) (items : List Item) (pend : List TwRecord)
    (h : ∀ k, k ∈ (store ++ pend).map twKey → k ∈ (store' ++ pend').map twKey)
    (hfin : ∀ k, k ∈ (twPendingAux p uid startTs untilTs store pend items).map twKey →
      k ∈ (store' ++ pend').map twKey) :
    twPendingAux p uid startTs untilTs store' pend' items = pend' := by
  induction items generalizing pend with
  | nil => rfl
  | cons t rest ih =>
    rw [twPendingAux]
    cases ha : twAdmit p startTs untilTs t with
    | none =>
      rw [twPendingAux, ha] at hfin
      exact ih pend h hfin
    | some ts =>
      rw [twPendingAux, ha] at hfin
      dsimp only at hfin ⊢
      by_cases hd : twExists store pend uid (twTweetId t)
      · -- duplicate in the first run: the key is already dominated
        have hk : (uid, twTweetId t) ∈ (store' ++ pend').map twKey :=
          h _ ((twExists_iff store pend uid (twTweetId t)).mp hd)
        rw [if_pos ((twExists_iff store' pend' uid (twTweetId t)).mpr hk)]
        rw [if_pos hd] at hfin
        exact ih pend h hfin
      · -- accepted in the first run: its key reaches the final pending
        rw [if_neg hd] at hfin
        have hkfin : (uid, twTweetId t) ∈ (store' ++ pend').map twKey := by
          apply hfin
          obtain ⟨l, hl⟩ := twPendingAux_append p uid startTs untilTs store rest
            (pend ++ [twMapItem uid ts t])
          rw [hl]
          simp [twKey_map]
        rw [if_pos ((twExists_iff store' pend' uid (twTweetId t)).mpr hkfin)]
        apply ih (pend ++ [twMapItem uid ts t]) _ hfin
        intro k hk
        rcases List.mem_map.mp hk with ⟨r, hr, hkey⟩
        rcases List.mem_append.mp hr with hr | hr
        · exact h k (by subst hkey; exact List.mem_map_of_mem twKey (List.mem_append.mpr (.inl hr)))
        · rcases List.mem_append.mp hr with hr | hr
          · exact h k (by subst hkey; exact List.mem_map_of_mem twKey (List.mem_append.mpr (.inr hr)))
          · have : r = twMapItem uid ts t := by simpa using hr
            subst this
            subst hkey
            simpa [twKey_map] using hkfin

/-- Accepted rows are created with empty enrichment fields. -/
theorem twPendingAux_empty_fields (p : PyVal → Option Int) (uid : Nat)
    (startTs untilTs : Int) (store : List TwRecord) (items : List Item)
    (pend : List TwRecord)
    (h : ∀ r ∈ pend, r.chatgptTitle = "" ∧ r.chatgptOutput = "") :
    ∀ r ∈ twPendingAux p uid startTs untilTs store pend items,
      r.chatgptTitle = "" ∧ r.chatgptOutput = "" := by
  induction items generalizing pend with
  | nil => exact h
  | cons t rest ih =>
    rw [twPendingAux]
    cases twAdmit p startTs untilTs t with
    | none => exact ih pend h
    | some ts =>
      dsimp only
      by_cases hd : twExists store pend uid (twTweetId t)
      · rw [if_pos hd]; exact ih pend h
      · rw [if_neg hd]
        refine ih (pend ++ [twMapItem uid ts t]) ?_
        intro r hr
        rcases List.mem_append.mp hr with hr | hr
        · exact h r hr
        · have : r = twMapItem uid ts t := by simpa using hr
          subst this
          exact ⟨rfl, rfl⟩

/-! ## Lemmas about the enrichment loops -/

/-- Enrichment never changes a row's natural key. -/
theorem twEnrichOne_fst_key (key : Option String) (r : ChatRes) (st : TwRecord) :
    twKey (twEnrichOne key r st).1 = twKey st := by
  simp only [twEnrichOne]
  split <;> rfl

theorem twEnrichAux_keys (key : Option String) (trs : Nat → ChatRes) :
    ∀ (i : Nat) (recs : List TwRecord),
      (twEnrichAux key trs i recs).1.map twKey = recs.map twKey := by
  intro i recs
  induction recs generalizing i with
  | nil => rfl
  | cons st rest ih =>
    simp only [twEnrichAux, List.map_cons, twEnrichOne_fst_key, ih]

/-- The enrichment loop acts on each record independently: it is the
indexed map of the per-record body over the inserted rows. -/
theorem twEnrichAux_eq_mapIdx (key : Option String) (trs : Nat → ChatRes) :
    ∀ (i : Nat) (recs : List TwRecord),
      (twEnrichAux key trs i recs).1 =
        recs.mapIdx fun j r => (twEnrichOne key (trs (i + j)) r).1 := by
  intro i recs
  induction recs generalizing i with
  | nil => rfl
  | cons st rest ih =>
    rw [twEnrichAux, List.mapIdx_cons]
    refine congrArg₂ _ (by rw [Nat.add_zero]) ?_
    rw [ih (i + 1)]
    have harg : (fun j r => (twEnrichOne key (trs (i + 1 + j)) r).1)
        = fun j r => (twEnrichOne key (trs (i + (j + 1))) r).1 := by
      funext j r
      have hj : i + 1 + j = i + (j + 1) := by omega
      rw [hj]
    rw [harg]

/-- A transport failure makes `call_chatgpt` return the error text,
and (when the error text does not contain the title marker) the parse
yields `("Untitled", error text)`, both truthy, so the loop body
writes both enrichment fields and counts the record as summarized. -/
theorem twEnrichOne_exc (key : Option String) (e : String) (st : TwRecord)
    (hkey : keyTruthy key = true)
    (hm : pyContains ("Error calling ChatGPT: " ++ e) "Post Title:" = false) :
    twEnrichOne key (.exc e) st =
      ({ st with chatgptTitle := "Untitled",
                 chatgptOutput := "Error calling ChatGPT: " ++ e }, 1, 1) := by
  have hne : ("Error calling ChatGPT: " ++ e) ≠ "" := by
    intro hc
    have := congrArg String.data hc
    rw [String.data_append] at this
    simp at this
  simp [twEnrichOne, callChatgptTw, hkey, parseChatgptResponseTw, hm, hne]

/-! ## Lemmas about the Facebook pipeline -/

theorem fbExists_iff (store : List FbRecord) (uid : Nat) (pid : String) :
    fbExists store uid pid = true ↔ (uid, pid) ∈ store.map fbKey := by
  simp [fbExists]

theorem fbKey_map (uid : Nat) (t : Item) :
    fbKey (fbMapItem uid t) = (uid, fbPostId t) := rfl

theorem fbUpdateFirst_keys (uid : Nat) (pid ti su : String) :
    ∀ l : List FbRecord, (fbUpdateFirst uid pid ti su l).map fbKey = l.map fbKey := by
  intro l
  induction l with
  | nil => rfl
  | cons r rest ih =>
    rw [fbUpdateFirst]
    by_cases h : fbKey r = (uid, pid)
    · rw [if_pos h]
      simp only [List.map_cons, ih]
      rfl
    · rw [if_neg h]
      simp only [List.map_cons, ih]

theorem fbEnrichAux_keys (key : Option String) (trs : Nat → ChatRes) (uid : Nat) :
    ∀ (i : Nat) (kept : List Item) (store : List FbRecord),
      (fbEnrichAux key trs uid i kept store).1.map fbKey = store.map fbKey := by
  intro i kept
  induction kept generalizing i with
  | nil => intro store; rfl
  | cons t rest ih =>
    intro store
    rw [fbEnrichAux]
    by_cases h : fbExists store uid (fbPostId t)
    · rw [if_pos h]
      dsimp only
      rw [ih (i + 1), fbUpdateFirst_keys]
    · rw [if_neg h]
      exact ih (i + 1) store

/-- When every kept item's key is visible in the store (as it is right
after commit 1), the loop issues exactly one request per kept item. -/
theorem fbEnrichAux_requests (key : Option String) (trs : Nat → ChatRes) (uid : Nat) :
    ∀ (i : Nat) (kept : List Item) (store : List FbRecord),
      (∀ t ∈ kept, (uid, fbPostId t) ∈ store.map fbKey) →
      (fbEnrichAux key trs uid i kept store).2 = kept.length := by
  intro i kept
  induction kept generalizing i with
  | nil => intro store _; rfl
  | cons t rest ih =>
    intro store hall
    rw [fbEnrichAux]
    have h : fbExists store uid (fbPostId t) = true :=
      (fbExists_iff store uid (fbPostId t)).mpr (hall t (by simp))
    rw [if_pos h]
    dsimp only
    have hiss : (callChatgptFb key (trs i)).1 = true := by
      cases trs i <;> rfl
    have : ∀ t' ∈ rest, (uid, fbPostId t') ∈
        (fbUpdateFirst uid (fbPostId t)
          (parseChatgptResponseFb (callChatgptFb key (trs i)).2).1
          (parseChatgptResponseFb (callChatgptFb key (trs i)).2).2 store).map fbKey := by
      intro t' ht'
      rw [fbUpdateFirst_keys]
      exact hall t' (by simp [ht'])
    rw [if_pos hiss, ih (i + 1) _ this]
    simp only [List.length_cons]
    omega

/-! ## Run-level helper lemmas -/

theorem twRun_of_pending_nil (p : PyVal → Option Int) (uid : Nat)
    (startTs untilTs : Int) (store0 : List TwRecord) (items : List Item)
    (key : Option String) (trs : Nat → ChatRes)
    (h : (twFilter p uid startTs untilTs store0 items).pending = []) :
    twRun p uid startTs untilTs store0 items key trs =
      ⟨store0, [], twFilter p uid startTs untilTs store0 items, false, 0, 0⟩ := by
  unfold twRun
  simp [h]

theorem twRun_store_keys (p : PyVal → Option Int) (uid : Nat)
    (startTs untilTs : Int) (store0 : List TwRecord) (items : List Item)
    (key : Option String) (trs : Nat → ChatRes) :
    (twRun p uid startTs untilTs store0 items key trs).store.map twKey =
      (store0 ++ (twFilter p uid startTs untilTs store0 items).pending).map twKey := by
  unfold twRun
  by_cases h : (twFilter p uid startTs untilTs store0 items).pending = []
  · simp [h]
  · by_cases hk : keyTruthy key
    · simp [h, hk, twEnrichAux_keys]
    · simp [h, hk]

theorem fbRun_of_kept_nil (pd : PyVal → Option Int) (uid : Nat) (today : Int)
    (store0 : List FbRecord) (items : List Item) (key : Option String)
    (trs : Nat → ChatRes)
    (h : fbFilter pd uid today store0 items = []) :
    fbRun pd uid today store0 items key trs = ⟨store0, [], false, 0⟩ := by
  unfold fbRun
  simp [h]

theorem fbRun_store_keys (pd : PyVal → Option Int) (uid : Nat) (today : Int)
    (store0 : List FbRecord) (items : List Item) (key : Option String)
    (trs : Nat → ChatRes) :
    (fbRun pd uid today store0 items key trs).store.map fbKey =
      (store0 ++ (fbFilter pd uid today store0 items).map (fbMapItem uid)).map fbKey := by
  unfold fbRun
  by_cases h : fbFilter pd uid today store0 items = []
  · simp [h]
  · have hne : (fbFilter pd uid today store0 items).isEmpty = false := by
      simpa [List.isEmpty_iff] using h
    simp [hne, fbEnrichAux_keys]

/-- A second filter pass rejects any item once the dominating store
holds every key the first pass accepted. -/
theorem fbKeep_second (pd : PyVal → Option Int) (uid : Nat) (today : Int)
    (store store' : List FbRecord) (t : Item)
    (hsub : ∀ k, k ∈ store.map fbKey → k ∈ store'.map fbKey)
    (hacc : fbKeep pd uid today store t = true →
      (uid, fbPostId t) ∈ store'.map fbKey) :
    fbKeep pd uid today store' t = false := by
  unfold fbKeep at hacc ⊢
  by_cases h1 : fbPostId t ≠ "" ∧ pyTruthy (fbTimeVal t) = true
  · rw [if_pos h1] at hacc ⊢
    cases hpd : pd (fbTimeVal t) with
    | none => rfl
    | some d =>
      rw [hpd] at hacc
      by_cases hd : (d == today) = true
      · by_cases hex : fbExists store uid (fbPostId t)
        · have hex' : fbExists store' uid (fbPostId t) = true :=
            (fbExists_iff _ _ _).mpr (hsub _ ((fbExists_iff _ _ _).mp hex))
          simp [hd, hex']
        · have hmem := hacc (by simp [hd, hex])
          have hex' : fbExists store' uid (fbPostId t) = true :=
            (fbExists_iff _ _ _).mpr hmem
          simp [hd, hex']
      · simp [hd]
  · rw [if_neg h1]

/-! ## Demo-item lemmas -/

theorem demoItem_eq (t : Item) : isDemoItem t = isDemoItemSpec t := by
  by_cases h2 : keysOf t = {"demo", "type"}
  · have h1 : ¬(keysOf t = {"demo"}) := by rw [h2]; decide
    simp only [isDemoItem, isDemoItemSpec]
    rw [h2]
    decide
  · by_cases h1 : keysOf t = {"demo"}
    · simp [isDemoItem, isDemoItemSpec, h1, h2]
    · simp [isDemoItem, isDemoItemSpec, h1, h2]

theorem lookupKey_eq_none (k : String) :
    ∀ t : Item, k ∉ keysOf t → lookupKey k t = none := by
  intro t
  induction t with
  | nil => intro _; rfl
  | cons kv rest ih =>
    intro h
    obtain ⟨k', v⟩ := kv
    rw [lookupKey]
    have hk : ¬ k' = k := by
      intro he
      apply h
      simp [keysOf, he]
    rw [if_neg hk]
    apply ih
    intro hm
    apply h
    simp only [keysOf, List.map_cons, List.mem_toFinset, List.mem_cons] at hm ⊢
    exact Or.inr hm

theorem demo_keys_lookups (t : Item) (h : isDemoItemSpec t = true) :
    lookupKey "postId" t = none ∧ lookupKey "id" t = none ∧
      lookupKey "time" t = none := by
  have hk : keysOf t = {"demo"} ∨ keysOf t = {"demo", "type"} := by
    simpa [isDemoItemSpec] using h
  refine ⟨?_, ?_, ?_⟩ <;>
    · apply lookupKey_eq_none
      rcases hk with hk | hk <;> rw [hk] <;> decide

theorem fbKeep_demo (pd : PyVal → Option Int) (uid : Nat) (today : Int)
    (store : List FbRecord) (t : Item) (h : isDemoItemSpec t = true) :
    fbKeep pd uid today store t = false := by
  obtain ⟨h1, h2, _⟩ := demo_keys_lookups t h
  have hpid : fbPostId t = "" := by
    simp [fbPostId, fbPostIdVal, pyGetD, h1, h2, pyStr]
  unfold fbKeep
  rw [if_neg]
  intro hc
  exact hc.1 hpid

/-! ## Handle-normalizer lemmas -/

theorem lstripAtL_idem (l : List Char) : lstripAtL (lstripAtL l) = lstripAtL l := by
  unfold lstripAtL
  induction l with
  | nil => rfl
  | cons c cs ih =>
    rw [List.dropWhile_cons]
    by_cases h : (c == '@') = true
    · rw [if_pos h]
      exact ih
    · rw [if_neg h]
      have hc : List.dropWhile (fun x => x == '@') (c :: cs) = c :: cs := by
        rw [List.dropWhile_cons, if_neg h]
      exact hc

theorem norm_no_leading_at (h : String) :
    lstripAtL (pyNormalizeHandle h).data = (pyNormalizeHandle h).data := by
  unfold pyNormalizeHandle
  by_cases h0 : h = ""
  · rw [if_pos h0]
    rfl
  · rw [if_neg h0]
    dsimp only
    by_cases hh : pyStartsWith (pyStrip h) "http"
    · rw [if_pos hh]
      exact lstripAtL_idem _
    · rw [if_neg hh]
      exact lstripAtL_idem _

/-! ## Claim C1 -/

/-- Claim C1, as stated, is false for the Facebook pipeline: the item
`{postId: "X", time: "2024-01-10T19:00:00-05:00"}` has canonical
(normalized UTC) timestamp exactly the start of 2024-01-11 — the
exclusive `until` of the ingest window for the UTC day 2024-01-10 —
yet the Facebook filter accepts it (its wall-clock calendar date in
its own offset is 2024-01-10), instead of discarding it as
`out_of_window`. -/
theorem c1_counterexample :
    parseTsModel fromisoformatFrag dateutilParseFrag 0
        (.vstr "2024-01-10T19:00:00-05:00") =
      some ((daysFromCivil 2024 1 10 + 1) * 86400) ∧
    fbKeep (parseDateModel dateutilParseFrag) 1 (daysFromCivil 2024 1 10) []
      [("postId", .vstr "X"), ("time", .vstr "2024-01-10T19:00:00-05:00")] = true := by
  exact ⟨by decide, by decide⟩

/-- Claim C1, amended: the Twitter filter accepts exactly on
`start ≤ t < until` (with `until` excluded and `start` included, once
the demo, type, key, parse and dedup checks pass), but the Facebook
filter instead keeps an item exactly when the wall-clock calendar date
of its parsed timestamp (in the timestamp's own offset, no UTC
conversion) equals the invocation's UTC `today` — which can accept
items whose normalized UTC timestamp lies at or beyond `until`. -/
theorem c1_amended :
    (∀ (p : PyVal → Option Int) (uid : Nat) (startTs untilTs : Int)
       (store pend : List TwRecord) (t : Item) (ts : Int),
       isDemoItem t = false → twTypeReject t = false → twTweetId t ≠ "" →
       twParsedTs p t = some ts → ¬(startTs ≤ ts ∧ ts < untilTs) →
       twProcessItem p uid startTs untilTs store pend t = .outOfWindow) ∧
    (∀ (p : PyVal → Option Int) (uid : Nat) (startTs untilTs : Int)
       (store pend : List TwRecord) (t : Item) (ts : Int),
       isDemoItem t = false → twTypeReject t = false → twTweetId t ≠ "" →
       twParsedTs p t = some ts → startTs ≤ ts → ts < untilTs →
       twExists store pend uid (twTweetId t) = false →
       twProcessItem p uid startTs untilTs store pend t =
         .accept (twMapItem uid ts t)) ∧
    (∀ (pd : PyVal → Option Int) (uid : Nat) (today : Int)
       (store : List FbRecord) (t : Item) (d : Int),
       fbPostId t ≠ "" → pyTruthy (fbTimeVal t) = true →
       pd (fbTimeVal t) = some d →
       fbExists store uid (fbPostId t) = false →
       (fbKeep pd uid today store t = true ↔ d = today)) := by
  refine ⟨?_, ?_, ?_⟩
  · intro p uid startTs untilTs store pend t ts h1 h2 h3 hp hw
    have hcond : (decide (startTs ≤ ts) && decide (ts < untilTs)) = false := by
      rcases not_and_or.mp hw with h | h <;> simp [h]
    simp [twProcessItem, h1, h2, h3, hp, hcond]
  · intro p uid startTs untilTs store pend t ts h1 h2 h3 hp hs hu hex
    have hcond : (decide (startTs ≤ ts) && decide (ts < untilTs)) = true := by
      simp [hs, hu]
    simp [twProcessItem, h1, h2, h3, hp, hcond, hex]
  · intro pd uid today store t d hpid htv hpd hex
    unfold fbKeep
    rw [if_pos ⟨hpid, htv⟩, hpd]
    simp [hex]

/-- Boundary witness for the amended C1, at the spec's own scenario:
window `[2024-01-10, 2024-01-11)`, item `"A"` at `2024-01-10T09:00:00Z`
accepted, item `"B"` at `2024-01-11T00:00:00Z` (exactly `until`)
discarded as `out_of_window`, and a Facebook item whose wall date is
`today` kept. -/
theorem c1_witness :
    twProcessItem (parseTsModel fromisoformatFrag dateutilParseFrag 0) 1
      (daysFromCivil 2024 1 10 * 86400) (daysFromCivil 2024 1 11 * 86400) [] []
      [("id", .vstr "B"), ("createdAt", .vstr "2024-01-11T00:00:00Z")] =
      .outOfWindow ∧
    twProcessItem (parseTsModel fromisoformatFrag dateutilParseFrag 0) 1
      (daysFromCivil 2024 1 10 * 86400) (daysFromCivil 2024 1 11 * 86400) [] []
      [("id", .vstr "A"), ("createdAt", .vstr "2024-01-10T09:00:00Z")] =
      .accept (twMapItem 1 (daysFromCivil 2024 1 10 * 86400 + 9 * 3600)
        [("id", .vstr "A"), ("createdAt", .vstr "2024-01-10T09:00:00Z")]) ∧
    fbKeep (parseDateModel dateutilParseFrag) 1 (daysFromCivil 2024 1 10) []
      [("postId", .vstr "X"), ("time", .vstr "2024-01-10T09:30:00Z")] = true := by
  refine ⟨?_, ?_, ?_⟩
  · exact c1_amended.1 _ 1 _ _ [] [] _ (daysFromCivil 2024 1 11 * 86400)
      (by decide) (by decide) (by decide) (by decide) (by decide)
  · exact c1_amended.2.1 _ 1 _ _ [] [] _ (daysFromCivil 2024 1 10 * 86400 + 9 * 3600)
      (by decide) (by decide) (by decide) (by decide) (by decide) (by decide) (by decide)
  · exact (c1_amended.2.2 _ 1 _ [] _ (daysFromCivil 2024 1 10)
      (by decide) (by decide) (by decide) (by decide)).mpr rfl

/-! ## Claim C3 -/

/-- Claim C3, as stated, is false on the direct-ISO branch: with a
process-local offset of +01:00 the naive input `"2024-01-10T09:00:00"`
is parsed by `fromisoformat` and then pushed through
`astimezone(timezone.utc)`, which presumes it to be *local* time and
yields 08:00 UTC, while the claim's "assumed to be UTC" reading yields
09:00 UTC. -/
theorem c3_counterexample :
    pyParseTimestamp fromisoformatFrag dateutilParseFrag 3600
        "2024-01-10T09:00:00" =
      some { wall := daysFromCivil 2024 1 10 * 86400 + 8 * 3600, tz := some 0 } ∧
    parseTimestampSpec fromisoformatFrag dateutilParseFrag
        "2024-01-10T09:00:00" =
      some { wall := daysFromCivil 2024 1 10 * 86400 + 9 * 3600, tz := some 0 } ∧
    (some { wall := daysFromCivil 2024 1 10 * 86400 + 8 * 3600, tz := some 0 }
        : Option PyDateTime) ≠
      some { wall := daysFromCivil 2024 1 10 * 86400 + 9 * 3600, tz := some 0 } := by
  exact ⟨by decide, by decide, by decide⟩

/-- Claim C3, amended: the resolution order is exactly (a) direct ISO
parse of the input with every `"Z"` replaced by `"+00:00"`, then
(b) the general-purpose grammar parser, then (c) `None`; every
successful parse returns an aware UTC value; a parsed value lacking an
offset is assumed UTC *only in the grammar branch* — in the direct ISO
branch a naive value is interpreted in the process-local timezone by
`astimezone`. -/
theorem c3_amended :
    (∀ (isoP dtP : String → Option PyDateTime) (localOff : Int),
      pyParseTimestamp isoP dtP localOff "" = none) ∧
    (∀ (isoP dtP : String → Option PyDateTime) (localOff : Int) (s : String)
       (d : PyDateTime), s ≠ "" →
      isoP (pyReplace s "Z" "+00:00") = some d →
      pyParseTimestamp isoP dtP localOff s = some (astimezoneUtc localOff d)) ∧
    (∀ (isoP dtP : String → Option PyDateTime) (localOff : Int) (s : String)
       (d : PyDateTime), s ≠ "" →
      isoP (pyReplace s "Z" "+00:00") = none → dtP s = some d → d.tz = none →
      pyParseTimestamp isoP dtP localOff s = some (replaceTzUtc d)) ∧
    (∀ (isoP dtP : String → Option PyDateTime) (localOff : Int) (s : String)
       (d : PyDateTime) (o : Int), s ≠ "" →
      isoP (pyReplace s "Z" "+00:00") = none → dtP s = some d → d.tz = some o →
      pyParseTimestamp isoP dtP localOff s = some (astimezoneUtc localOff d)) ∧
    (∀ (isoP dtP : String → Option PyDateTime) (localOff : Int) (s : String),
      s ≠ "" → isoP (pyReplace s "Z" "+00:00") = none → dtP s = none →
      pyParseTimestamp isoP dtP localOff s = none) ∧
    (∀ (isoP dtP : String → Option PyDateTime) (localOff : Int) (s : String)
       (r : PyDateTime),
      pyParseTimestamp isoP dtP localOff s = some r → r.tz = some 0) := by
  refine ⟨?_, ?_, ?_, ?_, ?_, ?_⟩
  · intro isoP dtP localOff
    rfl
  · intro isoP dtP localOff s d hs hiso
    unfold pyParseTimestamp
    rw [if_neg hs, hiso]
  · intro isoP dtP localOff s d hs hiso hdt htz
    unfold pyParseTimestamp
    rw [if_neg hs, hiso, hdt]
    dsimp only
    rw [htz]
  · intro isoP dtP localOff s d o hs hiso hdt htz
    unfold pyParseTimestamp
    rw [if_neg hs, hiso, hdt]
    dsimp only
    rw [htz]
  · intro isoP dtP localOff s hs hiso hdt
    unfold pyParseTimestamp
    rw [if_neg hs, hiso, hdt]
  · intro isoP dtP localOff s r hr
    unfold pyParseTimestamp at hr
    by_cases hs : s = ""
    · rw [if_pos hs] at hr
      cases hr
    · rw [if_neg hs] at hr
      cases hiso : isoP (pyReplace s "Z" "+00:00") with
      | some d =>
        rw [hiso] at hr
        dsimp only at hr
        cases hr
        rfl
      | none =>
        rw [hiso] at hr
        dsimp only at hr
        cases hdt : dtP s with
        | some d =>
          rw [hdt] at hr
          dsimp only at hr
          cases htz : d.tz with
          | none =>
            rw [htz] at hr
            cases hr
            rfl
          | some o =>
            rw [htz] at hr
            cases hr
            rfl
        | none =>
          rw [hdt] at hr
          cases hr

/-- Concrete witness for the amended C3: the `Z` input resolves through
the ISO branch to 09:00 UTC; the RFC-2822-shaped input falls through
to the grammar branch; an unparseable input gives `None`. -/
theorem c3_witness :
    pyParseTimestamp fromisoformatFrag dateutilParseFrag 0
        "2024-01-10T09:00:00Z" =
      some (astimezoneUtc 0
        { wall := daysFromCivil 2024 1 10 * 86400 + 9 * 3600, tz := some 0 }) ∧
    pyParseTimestamp fromisoformatFrag dateutilParseFrag 0 "not a date" = none ∧
    pyParseTimestamp fromisoformatFrag dateutilParseFrag 0 "" = none := by
  refine ⟨?_, ?_, ?_⟩
  · exact c3_amended.2.1 fromisoformatFrag dateutilParseFrag 0 "2024-01-10T09:00:00Z"
      { wall := daysFromCivil 2024 1 10 * 86400 + 9 * 3600, tz := some 0 }
      (by decide) (by decide)
  · exact c3_amended.2.2.2.2.1 fromisoformatFrag dateutilParseFrag 0 "not a date"
      (by decide) (by decide) (by decide)
  · exact c3_amended.1 fromisoformatFrag dateutilParseFrag 0

/-! ## Claim C4 -/

/-- Claim C4, as stated, is false on inputs with more than one leading
`@`: `_normalize_handle("@@user")` returns `"user"` (Python
`lstrip("@")` strips *every* leading `@`), while "a single leading
`@` stripped" would give `"@user"`. -/
theorem c4_counterexample :
    pyNormalizeHandle "@@user" = "user" ∧
    stripSingleAtSpec "@@user" = "@user" ∧
    ("user" : String) ≠ "@user" := by
  exact ⟨by decide, by decide, by decide⟩

/-- Claim C4, amended: the three reference shapes for the same
identifier all normalize to the bare identifier; an input that (after
whitespace stripping) does not start with `"http"` yields the stripped
input with *all* leading `@` characters removed; a URL input yields
the first path segment after the host, also with leading `@`s
removed. -/
theorem c4_amended :
    (pyNormalizeHandle "@user" = "user" ∧
     pyNormalizeHandle "https://service/user" = "user" ∧
     pyNormalizeHandle "user" = "user") ∧
    (∀ h : String, pyStartsWith (pyStrip h) "http" = false →
      pyNormalizeHandle h = String.mk (lstripAtL (pyStrip h).data)) ∧
    pyNormalizeHandle "https://service/@user" = "user" := by
  refine ⟨⟨by decide, by decide, by decide⟩, ?_, by decide⟩
  intro h hh
  by_cases h0 : h = ""
  · subst h0
    decide
  · unfold pyNormalizeHandle
    rw [if_neg h0]
    dsimp only
    rw [hh]
    simp

/-- Witness for the amended C4 non-URL branch at `"@@x"`. -/
theorem c4_witness :
    pyStartsWith (pyStrip "@@x") "http" = false ∧
    pyNormalizeHandle "@@x" = String.mk (lstripAtL (pyStrip "@@x").data) := by
  exact ⟨by decide, c4_amended.2.1 "@@x" (by decide)⟩

/-! ## Claim C9 -/

/-- Claim C9, as stated, is false: normalization is not idempotent.
`"@http://a/b"` normalizes to `"http://a/b"`, which re-normalizes to
`"b"`; `"@ user"` normalizes to `" user"`, which re-normalizes to
`"user"`. -/
theorem c9_counterexample :
    pyNormalizeHandle "@http://a/b" = "http://a/b" ∧
    pyNormalizeHandle (pyNormalizeHandle "@http://a/b") = "b" ∧
    ("b" : String) ≠ "http://a/b" ∧
    pyNormalizeHandle "@ user" = " user" ∧
    pyNormalizeHandle (pyNormalizeHandle "@ user") = "user" ∧
    (" user" : String) ≠ "user" := by
  exact ⟨by decide, by decide, by decide, by decide, by decide, by decide⟩

/-- Claim C9, amended: normalization is idempotent on every input
whose normalized form has no surrounding whitespace and does not start
with `"http"` (the output never starts with `@`, so only the
whitespace-strip and the URL branch can change it again). -/
theorem c9_amended (h : String)
    (hws : pyStrip (pyNormalizeHandle h) = pyNormalizeHandle h)
    (hhttp : pyStartsWith (pyNormalizeHandle h) "http" = false) :
    pyNormalizeHandle (pyNormalizeHandle h) = pyNormalizeHandle h := by
  by_cases h0 : pyNormalizeHandle h = ""
  · rw [h0]
    decide
  · conv_lhs => rw [pyNormalizeHandle]
    rw [if_neg h0]
    dsimp only
    rw [hws, hhttp]
    simp only [Bool.false_eq_true, if_false]
    calc String.mk (lstripAtL (pyNormalizeHandle h).data)
        = String.mk (pyNormalizeHandle h).data := by rw [norm_no_leading_at]
      _ = pyNormalizeHandle h := rfl

/-- Witness for the amended C9 at `"@@x"`. -/
theorem c9_witness :
    pyNormalizeHandle (pyNormalizeHandle "@@x") = pyNormalizeHandle "@@x" :=
  c9_amended "@@x" (by decide) (by decide)

/-! ## Claim C10 -/

/-- Claim C10: the demo predicate is equivalent to the pure key-set
test — `_is_demo_item(item)` holds exactly when the key set is
`{"demo"}` or `{"demo", "type"}`; the extra "no id/text/fullText key"
conjunct never changes the result. -/
theorem c10_demo_keyset_equiv (t : Item) :
    isDemoItem t = true ↔
      (keysOf t = {"demo"} ∨ keysOf t = {"demo", "type"}) := by
  rw [demoItem_eq]
  simp [isDemoItemSpec]

/-! ## Claim C5 -/

/-- Claim C5: an item whose field set is exactly the demo marker
(optionally plus a type tag) is discarded for every ingest window and
every dedup-oracle state — the Twitter filter rejects it at the demo
check, and the Facebook filter never keeps it (it has no id), so
neither pipeline ever inserts it. -/
theorem c5_demo_always_discarded :
    (∀ (p : PyVal → Option Int) (uid : Nat) (startTs untilTs : Int)
       (store pend : List TwRecord) (t : Item),
      isDemoItemSpec t = true →
      twProcessItem p uid startTs untilTs store pend t = .demo) ∧
    (∀ (pd : PyVal → Option Int) (uid : Nat) (today : Int)
       (store : List FbRecord) (items : List Item) (t : Item),
      isDemoItemSpec t = true → t ∉ fbFilter pd uid today store items) := by
  constructor
  · intro p uid startTs untilTs store pend t h
    have hd : isDemoItem t = true := by rw [demoItem_eq]; exact h
    simp [twProcessItem, hd]
  · intro pd uid today store items t h hmem
    have hk := (List.mem_filter.mp hmem).2
    rw [fbKeep_demo pd uid today store t h] at hk
    simp at hk

/-- Witness for C5 at the concrete demo item. -/
theorem c5_witness :
    isDemoItemSpec [("demo", PyVal.vbool true)] = true ∧
    twProcessItem (parseTsModel fromisoformatFrag dateutilParseFrag 0) 1 0 86400
      [] [] [("demo", PyVal.vbool true)] = .demo ∧
    [("demo", PyVal.vbool true)] ∉
      fbFilter (parseDateModel dateutilParseFrag) 1 0 []
        [[("demo", PyVal.vbool true)],
         [("demo", PyVal.vbool true), ("type", PyVal.vstr "tweet")]] := by
  refine ⟨by decide, ?_, ?_⟩
  · exact c5_demo_always_discarded.1 _ 1 0 86400 [] [] _ (by decide)
  · exact c5_demo_always_discarded.2 _ 1 0 [] _ _ (by decide)

/-! ## Claim C6 -/

/-- Claim C6, as stated, is false: when the transport for the first
record fails, that record's enrichment fields are *not* left empty —
the code writes the error text `"Error calling ChatGPT: timeout"` into
the summary and `"Untitled"` into the title (both truthy, so the
record even counts as summarized); the second record is still enriched
normally. -/
theorem c6_counterexample :
    ((twEnrichAux (some "k")
        (fun i => if i = 0 then ChatRes.exc "timeout"
          else ChatRes.ok "Great.\nPost Title: Hi") 0
        [⟨"A", 1, "ta", "fa", "au", 0, "", ""⟩,
         ⟨"B", 1, "tb", "fb", "au", 0, "", ""⟩]).1.map
      fun r => (r.chatgptTitle, r.chatgptOutput)) =
      [("Untitled", "Error calling ChatGPT: timeout"), ("Hi", "Great.")] ∧
    ("Error calling ChatGPT: timeout" : String) ≠ "" := by
  exact ⟨by decide, by decide⟩

/-- Claim C6, amended: each record is enriched independently (the loop
is the indexed map of its body, so one record's transport failure
cannot affect its siblings), and on a transport error whose text does
not contain the `"Post Title:"` marker the record's title is set to
`"Untitled"`, its summary to the error text `"Error calling ChatGPT:
…"` (not left empty), and it is counted as summarized. -/
theorem c6_amended :
    (∀ (key : Option String) (trs : Nat → ChatRes) (recs : List TwRecord),
      (twEnrichAux key trs 0 recs).1 =
        recs.mapIdx fun j r => (twEnrichOne key (trs j) r).1) ∧
    (∀ (key : Option String) (e : String) (st : TwRecord),
      keyTruthy key = true →
      pyContains ("Error calling ChatGPT: " ++ e) "Post Title:" = false →
      twEnrichOne key (.exc e) st =
        ({ st with chatgptTitle := "Untitled",
                   chatgptOutput := "Error calling ChatGPT: " ++ e }, 1, 1)) := by
  constructor
  · intro key trs recs
    rw [twEnrichAux_eq_mapIdx key trs 0 recs]
    simp
  · exact fun key e st => twEnrichOne_exc key e st

/-- Witness for the amended C6 at a concrete error. -/
theorem c6_witness :
    twEnrichOne (some "k") (.exc "boom") ⟨"A", 1, "t", "f", "a", 0, "", ""⟩ =
      ({ tweetId := "A", userId := 1, text := "t", fullText := "f",
         authorName := "a", createdAt := 0, chatgptTitle := "Untitled",
         chatgptOutput := "Error calling ChatGPT: boom" }, 1, 1) :=
  c6_amended.2 (some "k") "boom" ⟨"A", 1, "t", "f", "a", 0, "", ""⟩
    (by decide) (by decide)

/-! ## Claim C7 -/

/-- Claim C7, as stated, is false for the Facebook pipeline: with no
credential configured (`key = none`) the Facebook enrichment loop
still issues one request per inserted record (its `call_chatgpt` has
no key check) and writes the parsed failure reply into the enrichment
fields, instead of skipping the phase. -/
theorem c7_counterexample :
    (fbRun (parseDateModel dateutilParseFrag) 1 (daysFromCivil 2024 1 10) []
        [[("postId", .vstr "X"), ("time", .vstr "2024-01-10T09:30:00Z")]] none
        (fun _ => ChatRes.noChoices)).requests = 1 ∧
    ((fbRun (parseDateModel dateutilParseFrag) 1 (daysFromCivil 2024 1 10) []
        [[("postId", .vstr "X"), ("time", .vstr "2024-01-10T09:30:00Z")]] none
        (fun _ => ChatRes.noChoices)).store.map
      fun r => (r.posttitle, r.chatgptOutput)) =
      [("Untitled", "No response from ChatGPT.")] ∧
    (1 : Nat) ≠ 0 := by
  exact ⟨by decide, by decide, by decide⟩

/-- Claim C7, amended: with no credential the *Twitter* pipeline skips
the enrichment phase entirely — zero requests, no enrichment field
written, ingestion still committed — while the *Facebook* pipeline
issues exactly one enrichment request per inserted record. -/
theorem c7_amended :
    (∀ (p : PyVal → Option Int) (uid : Nat) (startTs untilTs : Int)
       (store0 : List TwRecord) (items : List Item) (key : Option String)
       (trs : Nat → ChatRes),
      keyTruthy key = false → items.all twItemWF = true →
      (twRun p uid startTs untilTs store0 items key trs).requests = 0 ∧
      (twRun p uid startTs untilTs store0 items key trs).enrichEntered = false ∧
      (twRun p uid startTs untilTs store0 items key trs).store =
        store0 ++ (twRun p uid startTs untilTs store0 items key trs).inserted ∧
      ∀ r ∈ (twRun p uid startTs untilTs store0 items key trs).inserted,
        r.chatgptTitle = "" ∧ r.chatgptOutput = "") ∧
    (∀ (pd : PyVal → Option Int) (uid : Nat) (today : Int)
       (store0 : List FbRecord) (items : List Item) (trs : Nat → ChatRes),
      items.all fbItemWF = true →
      (fbRun pd uid today store0 items none trs).requests =
        (fbRun pd uid today store0 items none trs).inserted.length) := by
  constructor
  · intro p uid startTs untilTs store0 items key trs hkey _
    by_cases h : (twFilter p uid startTs untilTs store0 items).pending = []
    · rw [twRun_of_pending_nil p uid startTs untilTs store0 items key trs h]
      exact ⟨rfl, rfl, by simp, by simp⟩
    · have hrun : twRun p uid startTs untilTs store0 items key trs =
        ⟨store0 ++ (twFilter p uid startTs untilTs store0 items).pending,
         (twFilter p uid startTs untilTs store0 items).pending,
         twFilter p uid startTs untilTs store0 items, false, 0, 0⟩ := by
        unfold twRun
        simp [h, hkey]
      rw [hrun]
      refine ⟨rfl, rfl, rfl, ?_⟩
      intro r hr
      have hp : (twFilter p uid startTs untilTs store0 items).pending =
          twPendingAux p uid startTs untilTs store0 [] items := by
        rw [twFilter, twFilterAux_pending]
      rw [hp] at hr
      exact twPendingAux_empty_fields p uid startTs untilTs store0 items []
        (by simp) r hr
  · intro pd uid today store0 items trs _
    by_cases h : fbFilter pd uid today store0 items = []
    · rw [fbRun_of_kept_nil pd uid today store0 items none trs h]
      rfl
    · have hne : (fbFilter pd uid today store0 items).isEmpty = false := by
        simpa [List.isEmpty_iff] using h
      unfold fbRun
      simp only [hne, Bool.false_eq_true, if_false]
      rw [fbEnrichAux_requests]
      · simp
      · intro t ht
        rw [List.map_append, List.mem_append]
        right
        rw [← fbKey_map uid t]
        apply List.mem_map_of_mem fbKey
        exact List.mem_map_of_mem (fbMapItem uid) ht

/-- Witness for the amended C7 at concrete runs. -/
theorem c7_witness :
    keyTruthy none = false ∧
    (twRun (parseTsModel fromisoformatFrag dateutilParseFrag 0) 1
        (daysFromCivil 2024 1 10 * 86400) (daysFromCivil 2024 1 11 * 86400) []
        [[("id", .vstr "A"), ("createdAt", .vstr "2024-01-10T09:00:00Z")]] none
        (fun _ => ChatRes.noChoices)).requests = 0 ∧
    (twRun (parseTsModel fromisoformatFrag dateutilParseFrag 0) 1
        (daysFromCivil 2024 1 10 * 86400) (daysFromCivil 2024 1 11 * 86400) []
        [[("id", .vstr "A"), ("createdAt", .vstr "2024-01-10T09:00:00Z")]] none
        (fun _ => ChatRes.noChoices)).enrichEntered = false ∧
    (fbRun (parseDateModel dateutilParseFrag) 1 (daysFromCivil 2024 1 10) []
        [[("postId", .vstr "X"), ("time", .vstr "2024-01-10T09:30:00Z")]] none
        (fun _ => ChatRes.noChoices)).requests =
      (fbRun (parseDateModel dateutilParseFrag) 1 (daysFromCivil 2024 1 10) []
        [[("postId", .vstr "X"), ("time", .vstr "2024-01-10T09:30:00Z")]] none
        (fun _ => ChatRes.noChoices)).inserted.length := by
  refine ⟨by decide, ?_, ?_, ?_⟩
  · exact (c7_amended.1 _ 1 _ _ [] _ none _ (by decide) (by decide)).1
  · exact (c7_amended.1 _ 1 _ _ [] _ none _ (by decide) (by decide)).2.1
  · exact c7_amended.2 _ 1 _ [] _ _ (by decide)

/-! ## Claim C8 -/

/-- Claim C8: when the filter accepts zero items, both pipelines
short-circuit to completion — the persisted store is unchanged (no
commit), nothing is inserted, the enrichment phase is never entered
and no enrichment request is issued. -/
theorem c8_zero_accept_short_circuit :
    (∀ (p : PyVal → Option Int) (uid : Nat) (startTs untilTs : Int)
       (store0 : List TwRecord) (items : List Item) (key : Option String)
       (trs : Nat → ChatRes),
      (twFilter p uid startTs untilTs store0 items).pending = [] →
      (twRun p uid startTs untilTs store0 items key trs).store = store0 ∧
      (twRun p uid startTs untilTs store0 items key trs).inserted = [] ∧
      (twRun p uid startTs untilTs store0 items key trs).enrichEntered = false ∧
      (twRun p uid startTs untilTs store0 items key trs).requests = 0) ∧
    (∀ (pd : PyVal → Option Int) (uid : Nat) (today : Int)
       (store0 : List FbRecord) (items : List Item) (key : Option String)
       (trs : Nat → ChatRes),
      fbFilter pd uid today store0 items = [] →
      (fbRun pd uid today store0 items key trs).store = store0 ∧
      (fbRun pd uid today store0 items key trs).inserted = [] ∧
      (fbRun pd uid today store0 items key trs).enrichEntered = false ∧
      (fbRun pd uid today store0 items key trs).requests = 0) := by
  constructor
  · intro p uid startTs untilTs store0 items key trs h
    rw [twRun_of_pending_nil p uid startTs untilTs store0 items key trs h]
    exact ⟨rfl, rfl, rfl, rfl⟩
  · intro pd uid today store0 items key trs h
    rw [fbRun_of_kept_nil pd uid today store0 items key trs h]
    exact ⟨rfl, rfl, rfl, rfl⟩

/-- Witness for C8: a dataset of one demo item accepts nothing and
leaves both stores untouched. -/
theorem c8_witness :
    (twRun (parseTsModel fromisoformatFrag dateutilParseFrag 0) 1 0 86400
        [⟨"Z", 1, "", "", "", 0, "", ""⟩] [[("demo", PyVal.vbool true)]]
        (some "k") (fun _ => ChatRes.noChoices)).store =
      [⟨"Z", 1, "", "", "", 0, "", ""⟩] ∧
    (fbRun (parseDateModel dateutilParseFrag) 1 0
        [⟨"Y", 1, "", "", "", ""⟩] [[("demo", PyVal.vbool true)]]
        (some "k") (fun _ => ChatRes.noChoices)).store =
      [⟨"Y", 1, "", "", "", ""⟩] := by
  refine ⟨?_, ?_⟩
  · exact (c8_zero_accept_short_circuit.1 _ 1 0 86400 _ _ (some "k") _ (by decide)).1
  · exact (c8_zero_accept_short_circuit.2 _ 1 0 _ _ (some "k") _ (by rfl)).1

/-! ## Claim C2 -/

/-- Claim C2: ingestion is idempotent — after a completed, committed
run, re-running either pipeline over the unchanged dataset (same
window / same `today`) inserts zero new records and leaves the
persisted store unchanged, because every item is either discarded by
the same static checks as before or found by the key-existence check
and discarded as a duplicate. -/
theorem c2_idempotent :
    (∀ (p : PyVal → Option Int) (uid : Nat) (startTs untilTs : Int)
       (store0 : List TwRecord) (items : List Item) (key key' : Option String)
       (trs trs' : Nat → ChatRes),
      items.all twItemWF = true →
      (twRun p uid startTs untilTs
        (twRun p uid startTs untilTs store0 items key trs).store
        items key' trs').inserted = [] ∧
      (twRun p uid startTs untilTs
        (twRun p uid startTs untilTs store0 items key trs).store
        items key' trs').store =
        (twRun p uid startTs untilTs store0 items key trs).store) ∧
    (∀ (pd : PyVal → Option Int) (uid : Nat) (today : Int)
       (store0 : List FbRecord) (items : List Item) (key key' : Option String)
       (trs trs' : Nat → ChatRes),
      items.all fbItemWF = true →
      (fbRun pd uid today (fbRun pd uid today store0 items key trs).store
        items key' trs').inserted = [] ∧
      (fbRun pd uid today (fbRun pd uid today store0 items key trs).store
        items key' trs').store =
        (fbRun pd uid today store0 items key trs).store) := by
  constructor
  · intro p uid startTs untilTs store0 items key key' trs trs' _
    have hkeys := twRun_store_keys p uid startTs untilTs store0 items key trs
    have hpend1 : (twFilter p uid startTs untilTs store0 items).pending =
        twPendingAux p uid startTs untilTs store0 [] items := by
      rw [twFilter, twFilterAux_pending]
    have hpend2 : (twFilter p uid startTs untilTs
        (twRun p uid startTs untilTs store0 items key trs).store items).pending = [] := by
      rw [twFilter, twFilterAux_pending]
      apply twPendingAux_dominated p uid startTs untilTs store0 _ [] items []
      · intro k hk
        rw [List.append_nil] at hk ⊢
        rw [hkeys, List.map_append, List.mem_append]
        exact Or.inl hk
      · intro k hk
        rw [List.append_nil]
        rw [hkeys, hpend1, List.map_append, List.mem_append]
        exact Or.inr hk
    constructor
    · rw [twRun_of_pending_nil _ _ _ _ _ _ _ _ hpend2]
    · rw [twRun_of_pending_nil _ _ _ _ _ _ _ _ hpend2]
  · intro pd uid today store0 items key key' trs trs' _
    have hkeys := fbRun_store_keys pd uid today store0 items key trs
    have hfil : fbFilter pd uid today
        (fbRun pd uid today store0 items key trs).store items = [] := by
      rw [fbFilter, List.filter_eq_nil_iff]
      intro t ht
      have hsub : ∀ k, k ∈ store0.map fbKey →
          k ∈ (fbRun pd uid today store0 items key trs).store.map fbKey := by
        intro k hk
        rw [hkeys, List.map_append, List.mem_append]
        exact Or.inl hk
      have hacc : fbKeep pd uid today store0 t = true →
          (uid, fbPostId t) ∈
            (fbRun pd uid today store0 items key trs).store.map fbKey := by
        intro hkeep
        rw [hkeys, List.map_append, List.mem_append]
        right
        rw [← fbKey_map uid t]
        apply List.mem_map_of_mem fbKey
        apply List.mem_map_of_mem (fbMapItem uid)
        exact List.mem_filter.mpr ⟨ht, hkeep⟩
      have hk := fbKeep_second pd uid today store0
        (fbRun pd uid today store0 items key trs).store t hsub hacc
      simp [hk]
    constructor
    · rw [fbRun_of_kept_nil _ _ _ _ _ _ _ hfil]
    · rw [fbRun_of_kept_nil _ _ _ _ _ _ _ hfil]

/-- Witness for C2 at concrete runs (one real item and one demo item
for Twitter; one kept item for Facebook). -/
theorem c2_witness :
    ([[("id", .vstr "A"), ("createdAt", .vstr "2024-01-10T09:00:00Z")],
      [("demo", PyVal.vbool true)]].all twItemWF = true) ∧
    (twRun (parseTsModel fromisoformatFrag dateutilParseFrag 0) 1
        (daysFromCivil 2024 1 10 * 86400) (daysFromCivil 2024 1 11 * 86400)
        (twRun (parseTsModel fromisoformatFrag dateutilParseFrag 0) 1
          (daysFromCivil 2024 1 10 * 86400) (daysFromCivil 2024 1 11 * 86400) []
          [[("id", .vstr "A"), ("createdAt", .vstr "2024-01-10T09:00:00Z")],
           [("demo", PyVal.vbool true)]] (some "k")
          (fun _ => ChatRes.noChoices)).store
        [[("id", .vstr "A"), ("createdAt", .vstr "2024-01-10T09:00:00Z")],
         [("demo", PyVal.vbool true)]] (some "k")
        (fun _ => ChatRes.noChoices)).inserted = [] ∧
    (fbRun (parseDateModel dateutilParseFrag) 1 (daysFromCivil 2024 1 10)
        (fbRun (parseDateModel dateutilParseFrag) 1 (daysFromCivil 2024 1 10) []
          [[("postId", .vstr "X"), ("time", .vstr "2024-01-10T09:30:00Z")]] none
          (fun _ => ChatRes.noChoices)).store
        [[("postId", .vstr "X"), ("time", .vstr "2024-01-10T09:30:00Z")]] none
        (fun _ => ChatRes.noChoices)).inserted = [] := by
  refine ⟨by decide, ?_, ?_⟩
  · exact (c2_idempotent.1 _ 1 _ _ [] _ (some "k") (some "k") _ _ (by decide)).1
  · exact (c2_idempotent.2 _ 1 _ [] _ none none _ _ (by decide)).1

end Evetari
